import Mathlib

/-!
Verification model of the filest upload server (Rust sources in src/).

Paths are modelled as lists of components (`FsPath`); filesystem queries that
the code performs (existence checks, symlink canonicalization, chunk-file
reads, write/sync success) are abstracted as explicit parameters, so every
definition here is an executable shallow embedding of the corresponding Rust
function.  Byte buffers are lists of naturals.
-/

namespace Filest

/-- A filesystem path, as its list of components.  The sandbox root is itself
such a list; an absolute path under the root is `root ++ rest`. -/
abbrev FsPath := List String

/-- Strip leading slash characters, as `user_path.trim_start_matches('/')`
in `safe_path` (src/handlers.rs). -/
def trimLeadingSlashes (s : String) : String :=
  String.mk (s.data.dropWhile (fun c => c = '/'))

/-- Split a character list on slash characters, as Rust's `str::split('/')`:
empty segments between, before, or after slashes are kept as empty strings. -/
def splitSlash : List Char → List Char → List String
  | [], acc => [String.mk acc.reverse]
  | '/' :: cs, acc => String.mk acc.reverse :: splitSlash cs []
  | c :: cs, acc => splitSlash cs (c :: acc)

/-- The component list that `safe_path` walks: leading slashes stripped,
then split on slashes. -/
def userComponents (s : String) : List String :=
  splitSlash (trimLeadingSlashes s).data []

/-- Abstraction of the filesystem queries made by the resolver: whether a
path exists, and what `Path::canonicalize` returns for it (`none` models an
`Err` from the operating system, e.g. a nonexistent path). -/
structure Fs where
  pathExists : FsPath → Bool
  canonicalize : FsPath → Option FsPath

/-- Result of `safe_path`, mirroring `SafePathResult` in src/handlers.rs. -/
structure SafePathResult where
  logical : FsPath
  actual : FsPath
deriving Repr, DecidableEq

/-- The component walk inside `safe_path` (src/handlers.rs lines 43-57):
the cursor starts at root; empty and `.` components are skipped; `..` fails
when the cursor equals root and otherwise pops one component (`PathBuf::pop`);
any other name is pushed. -/
def walkComponents (root : FsPath) : FsPath → List String → Option FsPath
  | cur, [] => some cur
  | cur, c :: rest =>
    if c = "" ∨ c = "." then walkComponents root cur rest
    else if c = ".." then
      if cur = root then none
      else walkComponents root cur.dropLast rest
    else walkComponents root (cur ++ [c]) rest

/-- Embedding of `safe_path` (src/handlers.rs lines 37-76).  After the walk
the logical path is re-checked with `starts_with(root)`; the actual path is
the canonicalized logical path when it exists (falling back to the logical
path when canonicalization errors), and the logical path otherwise.  Note the
source performs no root check on the actual path. -/
def safe_path (fs : Fs) (root : FsPath) (userPath : String) : Option SafePathResult :=
  match walkComponents root root (userComponents userPath) with
  | none => none
  | some lp =>
    if root <+: lp then
      let actual := if fs.pathExists lp then (fs.canonicalize lp).getD lp else lp
      some { logical := lp, actual := actual }
    else none

/-- A filesystem on which nothing exists and canonicalization always fails,
matching a resolver run against paths that are not yet on disk. -/
def noFs : Fs :=
  { pathExists := fun _ => false
    canonicalize := fun _ => none }

/-- A filesystem on which every path exists and canonicalizes to the fixed
location `outside/target`, modelling a symlink inside the sandbox whose
target lies outside it. -/
def symlinkEscapeFs : Fs :=
  { pathExists := fun _ => true
    canonicalize := fun _ => some ["outside", "target"] }

theorem append_single_ne {α : Type} (l : List α) (a : α) : l ++ [a] ≠ l := by
  intro h
  have hlen := congrArg List.length h
  simp at hlen

theorem walk_push (root cur : FsPath) (rest : List String) (c : String)
    (h1 : ¬(c = "" ∨ c = ".")) (h2 : ¬ c = "..") :
    walkComponents root cur (c :: rest) = walkComponents root (cur ++ [c]) rest := by
  conv_lhs => unfold walkComponents
  rw [if_neg h1, if_neg h2]

theorem walk_pop (root cur : FsPath) (rest : List String) (h : ¬ cur = root) :
    walkComponents root cur (".." :: rest) = walkComponents root cur.dropLast rest := by
  conv_lhs => unfold walkComponents
  rw [if_neg (by decide), if_pos rfl, if_neg h]

theorem walk_pop_at_root (root : FsPath) (rest : List String) :
    walkComponents root root (".." :: rest) = none := by
  conv_lhs => unfold walkComponents
  rw [if_neg (by decide), if_pos rfl, if_pos rfl]

theorem walkComponents_confined (root : FsPath) (comps : List String) :
    ∀ cur, root <+: cur → ∀ p, walkComponents root cur comps = some p → root <+: p := by
  induction comps with
  | nil =>
    intro cur hcur p hp
    simp only [walkComponents, Option.some.injEq] at hp
    exact hp ▸ hcur
  | cons c rest ih =>
    intro cur hcur p hp
    unfold walkComponents at hp
    by_cases h1 : c = "" ∨ c = "."
    · rw [if_pos h1] at hp
      exact ih cur hcur p hp
    · rw [if_neg h1] at hp
      by_cases h2 : c = ".."
      · rw [if_pos h2] at hp
        by_cases h3 : cur = root
        · rw [if_pos h3] at hp
          cases hp
        · rw [if_neg h3] at hp
          refine ih cur.dropLast ?_ p hp
          obtain ⟨t, ht⟩ := hcur
          have htne : t ≠ [] := by
            intro h0
            exact h3 (by rw [← ht, h0, List.append_nil])
          rw [← ht, List.dropLast_append_of_ne_nil _ htne]
          exact ⟨t.dropLast, rfl⟩
      · rw [if_neg h2] at hp
        refine ih (cur ++ [c]) ?_ p hp
        obtain ⟨t, ht⟩ := hcur
        exact ⟨t ++ [c], by rw [← ht, List.append_assoc]⟩

/-- C1: every successful `safe_path` resolution yields a logical path that is
a descendant of root (root is a lexical prefix of it), and a path that pops
above root and then comes back (`a/../../b`) is always rejected: `..` at root
is a hard failure, not a modular one. -/
theorem safe_path_logical_descends (fs : Fs) (root : FsPath) (userPath : String) :
    (∀ r, safe_path fs root userPath = some r → root <+: r.logical) ∧
    safe_path fs root "a/../../b" = none := by
  constructor
  · intro r hr
    unfold safe_path at hr
    cases hw : walkComponents root root (userComponents userPath) with
    | none => rw [hw] at hr; cases hr
    | some lp =>
      rw [hw] at hr
      dsimp only at hr
      by_cases hp : root <+: lp
      · rw [if_pos hp] at hr
        simp only [Option.some.injEq] at hr
        rw [← hr]
        exact hp
      · rw [if_neg hp] at hr
        cases hr
  · have hcomp : userComponents "a/../../b" = ["a", "..", "..", "b"] := by decide
    have hdrop : (root ++ ["a"]).dropLast = root := by
      rw [List.dropLast_append_of_ne_nil _ (by simp)]
      simp
    unfold safe_path
    rw [hcomp, walk_push root root _ "a" (by decide) (by decide),
        walk_pop root _ _ (append_single_ne root "a"), hdrop, walk_pop_at_root]

/-- Closed instantiation of the C1 theorem at a concrete root and path. -/
theorem safe_path_logical_descends_witness :
    (["sb"] : FsPath) <+: ["sb", "docs"] ∧ safe_path noFs ["sb"] "a/../../b" = none := by
  refine ⟨?_, (safe_path_logical_descends noFs ["sb"] "a/../../b").2⟩
  exact (safe_path_logical_descends noFs ["sb"] "docs").1
    { logical := ["sb", "docs"], actual := ["sb", "docs"] } (by decide)

/-- C2: evaluation of `safe_path` on a filesystem where the requested path
exists and canonicalizes (through a symlink) to a location outside the root.
The source returns the escaped actual path instead of rejecting the
resolution: there is no re-check of `actual` against root after
canonicalization. -/
theorem safe_path_returns_escaped_actual :
    safe_path symlinkEscapeFs ["sandbox"] "link" =
      some { logical := ["sandbox", "link"], actual := ["outside", "target"] } ∧
    ¬ (["sandbox"] : FsPath) <+: ["outside", "target"] := by
  decide

/-- Chunked-upload session state, mirroring `UploadSession` in src/models.rs.
The `created_at` wall-clock timestamp is omitted: no claim mentions it and no
modelled operation reads it.  Sizes and chunk counts are naturals (`u64`/`u32`
in the source; none of the modelled arithmetic can overflow them since values
only ever count received client bytes). -/
structure UploadSession where
  uploadId : String
  filename : String
  totalSize : Nat
  totalChunks : Nat
  chunkSize : Nat
  uploadPath : FsPath
  tempDir : FsPath
  receivedChunks : List Bool
deriving Repr, DecidableEq

/-- Server state for the chunked-REST protocol: the session map
(`state.upload_sessions`) and the scratch chunk files on disk.  A scratch file
lives at `session.tempDir/chunk_<i>`; since `tempDir` is uniquely determined
by the upload id, scratch contents are keyed by upload id and chunk index. -/
structure ChunkedState where
  sessions : String → Option UploadSession
  scratch : String → Nat → Option (List Nat)

/-- Embedding of `chunked_upload_init` (src/handlers.rs lines 771-813):
resolve the path, then build a session whose scratch directory is
`<tempRoot>/filest_uploads/<uploadId>` and whose received-chunk bitset is
`totalChunks` falses.  The fresh UUID and the temp-dir creation are abstracted
as the `uploadId` parameter and as always succeeding. -/
def chunked_upload_init (fs : Fs) (root tempRoot : FsPath) (uploadId : String)
    (path filename : String) (totalSize chunkSize totalChunks : Nat) :
    Option UploadSession :=
  (safe_path fs root path).map (fun p =>
    { uploadId := uploadId
      filename := filename
      totalSize := totalSize
      totalChunks := totalChunks
      chunkSize := chunkSize
      uploadPath := p.actual
      tempDir := tempRoot ++ ["filest_uploads", uploadId]
      receivedChunks := List.replicate totalChunks false })

/-- Errors of `chunked_upload_chunk`; the source reports them as strings. -/
inductive ChunkErr
  | sessionNotFound
  | invalidIndex
deriving Repr, DecidableEq

/-- Embedding of `chunked_upload_chunk` (src/handlers.rs lines 816-868):
snapshot the session; reject an unknown id or an index `≥ totalChunks`; write
the chunk bytes to the scratch file for that index (an idempotent overwrite);
re-read the session and mark the index received.  The scratch write is
modelled as succeeding (its failure path returns before the bitset update and
no claim depends on it). -/
def chunked_upload_chunk (st : ChunkedState) (uploadId : String) (chunkIndex : Nat)
    (data : List Nat) : ChunkedState × Except ChunkErr Unit :=
  match st.sessions uploadId with
  | none => (st, .error .sessionNotFound)
  | some session =>
    if session.totalChunks ≤ chunkIndex then (st, .error .invalidIndex)
    else
      ({ sessions := fun id =>
           if id = uploadId then
             (st.sessions id).map (fun s =>
               { s with receivedChunks := s.receivedChunks.set chunkIndex true })
           else st.sessions id
         scratch := fun id i =>
           if id = uploadId ∧ i = chunkIndex then some data else st.scratch id i },
       .ok ())

/-- Errors of `chunked_upload_complete`; the source reports them as strings,
here they are typed by which operation failed. -/
inductive CompleteErr
  | sessionNotFound
  | missingChunks (indices : List Nat)
  | createDirFailed
  | createFileFailed
  | readChunkFailed (i : Nat)
  | writeChunkFailed (i : Nat)
  | syncFailed
deriving Repr, DecidableEq

/-- Whether an error is an I/O failure of the merge phase (chunk read, chunk
write, or final sync). -/
def CompleteErr.isMergeIoFailure : CompleteErr → Bool
  | readChunkFailed _ => true
  | writeChunkFailed _ => true
  | syncFailed => true
  | _ => false

/-- Success/failure oracle for the disk operations `chunked_upload_complete`
performs: directory creation, final-file creation, per-chunk read and write,
and the final sync. -/
structure Disk where
  createDirOk : Bool
  createFileOk : Bool
  readOk : Nat → Bool
  writeOk : Nat → Bool
  syncOk : Bool

/-- A disk on which every operation succeeds. -/
def allOkDisk : Disk :=
  { createDirOk := true
    createFileOk := true
    readOk := fun _ => true
    writeOk := fun _ => true
    syncOk := true }

/-- Indices whose chunks are not yet received, kept in index order, with a
running counter, as `received_chunks.iter().enumerate().filter(..).map(..)`
computes it in src/handlers.rs lines 887-891. -/
def missingFrom : Nat → List Bool → List Nat
  | _, [] => []
  | i, b :: rest => if b then missingFrom (i + 1) rest else i :: missingFrom (i + 1) rest

/-- The missing-chunk list computed by `chunked_upload_complete`. -/
def missingIndices (received : List Bool) : List Nat :=
  missingFrom 0 received

/-- The merge loop of `chunked_upload_complete` (src/handlers.rs lines
914-933): chunks are read and appended in index order; the first failing read
or write aborts with its error; on success the concatenated content is
returned along with `total_written`, the running sum of chunk lengths. -/
def mergeChunks (chunks : Nat → Option (List Nat)) (disk : Disk) :
    List Nat → Except CompleteErr (List Nat × Nat)
  | [] => .ok ([], 0)
  | i :: rest =>
    if disk.readOk i = false then .error (.readChunkFailed i)
    else
      match chunks i with
      | none => .error (.readChunkFailed i)
      | some data =>
        if disk.writeOk i = false then .error (.writeChunkFailed i)
        else
          match mergeChunks chunks disk rest with
          | .error e => .error e
          | .ok (content, written) => .ok (data ++ content, data.length + written)

/-- State of the destination file after a `Complete` call. -/
inductive FinalFile
  | untouched
  | written (content : List Nat)
  | deleted
deriving Repr, DecidableEq

/-- The JSON body of a successful `Complete`, as
`ChunkedUploadCompleteResponse` in src/models.rs; the reported path is the
absolute final path (the source renders it relative to root for display). -/
structure CompleteResponse where
  name : String
  size : Nat
  path : FsPath
deriving Repr, DecidableEq

/-- Removal of one key from the session map (`HashMap::remove`). -/
def removeSession (sessions : String → Option UploadSession) (uploadId : String) :
    String → Option UploadSession :=
  fun id => if id = uploadId then none else sessions id

/-- Insertion into the session map (`HashMap::insert`). -/
def insertSession (sessions : String → Option UploadSession) (uploadId : String)
    (s : UploadSession) : String → Option UploadSession :=
  fun id => if id = uploadId then some s else sessions id

/-- Everything observable about one `Complete` call: the session map it
leaves behind, whether the scratch directory was removed, what happened to
the destination file, and the response. -/
structure CompleteOutcome where
  sessions : String → Option UploadSession
  scratchRemoved : Bool
  finalFile : FinalFile
  result : Except CompleteErr CompleteResponse

/-- Embedding of `chunked_upload_complete` (src/handlers.rs lines 871-952):
remove the session (unknown id fails); if any chunk is missing, re-insert the
session and fail with the missing list; otherwise create the directory and
the final file, merge the chunks in index order (any failure deletes the
partially written final file and does not restore the session), sync (failure
also deletes the file), then remove the scratch directory and answer with the
filename, bytes written, and final path. -/
def chunked_upload_complete (st : ChunkedState) (disk : Disk) (uploadId : String) :
    CompleteOutcome :=
  match st.sessions uploadId with
  | none =>
    { sessions := st.sessions, scratchRemoved := false, finalFile := .untouched
      result := .error .sessionNotFound }
  | some session =>
    let sessions1 := removeSession st.sessions uploadId
    let missing := missingIndices session.receivedChunks
    if missing ≠ [] then
      { sessions := insertSession sessions1 uploadId session, scratchRemoved := false
        finalFile := .untouched, result := .error (.missingChunks missing) }
    else if disk.createDirOk = false then
      { sessions := sessions1, scratchRemoved := false, finalFile := .untouched
        result := .error .createDirFailed }
    else if disk.createFileOk = false then
      { sessions := sessions1, scratchRemoved := false, finalFile := .untouched
        result := .error .createFileFailed }
    else
      match mergeChunks (st.scratch uploadId) disk (List.range session.totalChunks) with
      | .error e =>
        { sessions := sessions1, scratchRemoved := false, finalFile := .deleted
          result := .error e }
      | .ok (content, written) =>
        if disk.syncOk = false then
          { sessions := sessions1, scratchRemoved := false, finalFile := .deleted
            result := .error .syncFailed }
        else
          { sessions := sessions1, scratchRemoved := true, finalFile := .written content
            result := .ok { name := session.filename, size := written
                            path := session.uploadPath ++ [session.filename] } }

/-- Delivery of a list of chunk indices through `chunked_upload_chunk`, each
index carrying the bytes `d i`; re-deliveries of an index are idempotent
overwrites of the same data. -/
def deliverChunks (st : ChunkedState) (uploadId : String) (d : Nat → List Nat)
    (order : List Nat) : ChunkedState :=
  order.foldl (fun s i => (chunked_upload_chunk s uploadId i (d i)).1) st

theorem missingFrom_cons_true (i : Nat) (rest : List Bool) :
    missingFrom i (true :: rest) = missingFrom (i + 1) rest := by
  conv_lhs => unfold missingFrom
  rw [if_pos rfl]

theorem missingFrom_cons_false (i : Nat) (rest : List Bool) :
    missingFrom i (false :: rest) = i :: missingFrom (i + 1) rest := by
  conv_lhs => unfold missingFrom
  rw [if_neg (by simp)]

theorem mem_missingFrom (rc : List Bool) :
    ∀ (i j : Nat), j ∈ missingFrom i rc ↔ ∃ k, rc.get? k = some false ∧ j = i + k := by
  induction rc with
  | nil => intro i j; simp [missingFrom]
  | cons b rest ih =>
    intro i j
    cases b with
    | true =>
      rw [missingFrom_cons_true, ih (i + 1) j]
      constructor
      · rintro ⟨k, hk, rfl⟩
        exact ⟨k + 1, by simpa using hk, by omega⟩
      · rintro ⟨k, hk, rfl⟩
        cases k with
        | zero => simp at hk
        | succ k => exact ⟨k, by simpa using hk, by omega⟩
    | false =>
      rw [missingFrom_cons_false, List.mem_cons, ih (i + 1) j]
      constructor
      · rintro (rfl | ⟨k, hk, rfl⟩)
        · exact ⟨0, by simp, by omega⟩
        · exact ⟨k + 1, by simpa using hk, by omega⟩
      · rintro ⟨k, hk, rfl⟩
        cases k with
        | zero => left; omega
        | succ k => right; exact ⟨k, by simpa using hk, by omega⟩

theorem mem_missingIndices (rc : List Bool) (j : Nat) :
    j ∈ missingIndices rc ↔ rc.get? j = some false := by
  unfold missingIndices
  rw [mem_missingFrom rc 0 j]
  constructor
  · rintro ⟨k, hk, rfl⟩
    simpa using hk
  · intro hj
    exact ⟨j, hj, by omega⟩

/-- C5: when at least one chunk is unreceived, `Complete` fails with exactly
the indices whose received flag is false, re-inserts the session so the same
upload id still resolves to it, and neither writes the destination file nor
removes the scratch directory. -/
theorem chunked_complete_missing_restores (st : ChunkedState) (disk : Disk)
    (uploadId : String) (session : UploadSession)
    (hsess : st.sessions uploadId = some session)
    (hmiss : ∃ j, session.receivedChunks.get? j = some false) :
    (chunked_upload_complete st disk uploadId).result =
      .error (.missingChunks (missingIndices session.receivedChunks)) ∧
    (∀ j, j ∈ missingIndices session.receivedChunks ↔
      session.receivedChunks.get? j = some false) ∧
    (chunked_upload_complete st disk uploadId).sessions uploadId = some session ∧
    (chunked_upload_complete st disk uploadId).finalFile = .untouched ∧
    (chunked_upload_complete st disk uploadId).scratchRemoved = false := by
  have hchar := mem_missingIndices session.receivedChunks
  have hne : missingIndices session.receivedChunks ≠ [] := by
    obtain ⟨j, hj⟩ := hmiss
    exact List.ne_nil_of_mem ((hchar j).mpr hj)
  unfold chunked_upload_complete
  rw [hsess]
  dsimp only
  rw [if_pos hne]
  exact ⟨rfl, hchar, by simp [insertSession], rfl, rfl⟩

/-- Closed instantiation of the C5 theorem: a two-chunk session with only
chunk 1 received fails with missing list `[0]` and stays in the store. -/
theorem chunked_complete_missing_restores_witness :
    (chunked_upload_complete
      { sessions := fun id => if id = "u1" then
          some { uploadId := "u1", filename := "f.bin", totalSize := 10, totalChunks := 2
                 chunkSize := 5, uploadPath := ["sb"], tempDir := ["tmp", "filest_uploads", "u1"]
                 receivedChunks := [false, true] }
          else none
        scratch := fun _ _ => none } allOkDisk "u1").result =
      .error (.missingChunks [0]) ∧
    (chunked_upload_complete
      { sessions := fun id => if id = "u1" then
          some { uploadId := "u1", filename := "f.bin", totalSize := 10, totalChunks := 2
                 chunkSize := 5, uploadPath := ["sb"], tempDir := ["tmp", "filest_uploads", "u1"]
                 receivedChunks := [false, true] }
          else none
        scratch := fun _ _ => none } allOkDisk "u1").sessions "u1" =
      some { uploadId := "u1", filename := "f.bin", totalSize := 10, totalChunks := 2
             chunkSize := 5, uploadPath := ["sb"], tempDir := ["tmp", "filest_uploads", "u1"]
             receivedChunks := [false, true] } := by
  have h := chunked_complete_missing_restores
    { sessions := fun id => if id = "u1" then
        some { uploadId := "u1", filename := "f.bin", totalSize := 10, totalChunks := 2
               chunkSize := 5, uploadPath := ["sb"], tempDir := ["tmp", "filest_uploads", "u1"]
               receivedChunks := [false, true] }
        else none
      scratch := fun _ _ => none } allOkDisk "u1"
    { uploadId := "u1", filename := "f.bin", totalSize := 10, totalChunks := 2
      chunkSize := 5, uploadPath := ["sb"], tempDir := ["tmp", "filest_uploads", "u1"]
      receivedChunks := [false, true] }
    (by simp) ⟨0, by simp⟩
  exact ⟨by rw [h.1]; rfl, h.2.2.1⟩

theorem chunked_complete_no_restore_of_all_received (st : ChunkedState) (disk : Disk)
    (uploadId : String) (session : UploadSession)
    (hsess : st.sessions uploadId = some session)
    (hnomiss : missingIndices session.receivedChunks = []) :
    (chunked_upload_complete st disk uploadId).sessions uploadId = none := by
  unfold chunked_upload_complete
  rw [hsess]
  dsimp only
  rw [if_neg (by simp [hnomiss])]
  by_cases h1 : disk.createDirOk = false
  · rw [if_pos h1]; simp [removeSession]
  · rw [if_neg h1]
    by_cases h2 : disk.createFileOk = false
    · rw [if_pos h2]; simp [removeSession]
    · rw [if_neg h2]
      cases hm : mergeChunks (st.scratch uploadId) disk (List.range session.totalChunks) with
      | error e => simp [removeSession]
      | ok p =>
        obtain ⟨content, written⟩ := p
        dsimp only
        by_cases h3 : disk.syncOk = false
        · rw [if_pos h3]; simp [removeSession]
        · rw [if_neg h3]; simp [removeSession]

/-- C6: `Complete` removes the session before inspecting it, so once a call
with all chunks received has run (succeeding, or failing in the merge phase
without restoring), any later `Complete` for the same upload id — whatever
the disk does then — fails with session-not-found. -/
theorem chunked_complete_second_call_not_found (st st2 : ChunkedState) (disk disk2 : Disk)
    (uploadId : String) (session : UploadSession)
    (hsess : st.sessions uploadId = some session)
    (hnomiss : missingIndices session.receivedChunks = [])
    (hst2 : st2.sessions = (chunked_upload_complete st disk uploadId).sessions) :
    (chunked_upload_complete st2 disk2 uploadId).result = .error .sessionNotFound := by
  have hkey := chunked_complete_no_restore_of_all_received st disk uploadId session hsess hnomiss
  unfold chunked_upload_complete
  rw [hst2, hkey]

/-- Closed instantiation of the C6 theorem: complete a fully received
one-chunk session, then complete again and observe session-not-found. -/
theorem chunked_complete_second_call_not_found_witness :
    (chunked_upload_complete
      { sessions := (chunked_upload_complete
          { sessions := fun id => if id = "u1" then
              some { uploadId := "u1", filename := "f.bin", totalSize := 5, totalChunks := 1
                     chunkSize := 5, uploadPath := ["sb"], tempDir := ["tmp", "filest_uploads", "u1"]
                     receivedChunks := [true] }
              else none
            scratch := fun id i => if id = "u1" ∧ i = 0 then some [7, 8] else none }
          allOkDisk "u1").sessions
        scratch := fun _ _ => none } allOkDisk "u1").result = .error .sessionNotFound := by
  exact chunked_complete_second_call_not_found
    { sessions := fun id => if id = "u1" then
        some { uploadId := "u1", filename := "f.bin", totalSize := 5, totalChunks := 1
               chunkSize := 5, uploadPath := ["sb"], tempDir := ["tmp", "filest_uploads", "u1"]
               receivedChunks := [true] }
        else none
      scratch := fun id i => if id = "u1" ∧ i = 0 then some [7, 8] else none }
    { sessions := _, scratch := fun _ _ => none } allOkDisk allOkDisk "u1"
    { uploadId := "u1", filename := "f.bin", totalSize := 5, totalChunks := 1
      chunkSize := 5, uploadPath := ["sb"], tempDir := ["tmp", "filest_uploads", "u1"]
      receivedChunks := [true] }
    (by simp) (by decide) rfl

theorem mergeChunks_error_is_io (chunks : Nat → Option (List Nat)) (disk : Disk) :
    ∀ (l : List Nat) (e : CompleteErr),
      mergeChunks chunks disk l = .error e → e.isMergeIoFailure = true := by
  intro l
  induction l with
  | nil => intro e he; cases he
  | cons i rest ih =>
    intro e he
    unfold mergeChunks at he
    by_cases h1 : disk.readOk i = false
    · rw [if_pos h1] at he
      cases he
      rfl
    · rw [if_neg h1] at he
      cases hc : chunks i with
      | none => rw [hc] at he; cases he; rfl
      | some data =>
        rw [hc] at he
        dsimp only at he
        by_cases h2 : disk.writeOk i = false
        · rw [if_pos h2] at he; cases he; rfl
        · rw [if_neg h2] at he
          cases hm : mergeChunks chunks disk rest with
          | error e2 => rw [hm] at he; cases he; exact ih _ hm
          | ok p => rw [hm] at he; obtain ⟨c, w⟩ := p; cases he

/-- C7: when all chunks are received but a chunk read, a chunk write, or the
final sync fails, `Complete` deletes the partially written destination file,
leaves the scratch directory in place, does not re-insert the session, and
fails with the merge-phase I/O error. -/
theorem chunked_complete_merge_failure_no_restore (st : ChunkedState) (disk : Disk)
    (uploadId : String) (session : UploadSession)
    (hsess : st.sessions uploadId = some session)
    (hnomiss : missingIndices session.receivedChunks = [])
    (hdir : disk.createDirOk = true) (hfile : disk.createFileOk = true)
    (hfail : (∃ e, mergeChunks (st.scratch uploadId) disk
        (List.range session.totalChunks) = .error e) ∨ disk.syncOk = false) :
    (chunked_upload_complete st disk uploadId).finalFile = .deleted ∧
    (chunked_upload_complete st disk uploadId).scratchRemoved = false ∧
    (chunked_upload_complete st disk uploadId).sessions uploadId = none ∧
    ∃ e, (chunked_upload_complete st disk uploadId).result = .error e ∧
      e.isMergeIoFailure = true := by
  unfold chunked_upload_complete
  rw [hsess]
  dsimp only
  rw [if_neg (by simp [hnomiss]), if_neg (by simp [hdir]), if_neg (by simp [hfile])]
  rcases hfail with ⟨e, he⟩ | hsync
  · rw [he]
    exact ⟨rfl, rfl, by simp [removeSession], e, rfl, mergeChunks_error_is_io _ _ _ e he⟩
  · cases hm : mergeChunks (st.scratch uploadId) disk (List.range session.totalChunks) with
    | error e =>
      exact ⟨rfl, rfl, by simp [removeSession], e, rfl, mergeChunks_error_is_io _ _ _ e hm⟩
    | ok p =>
      obtain ⟨content, written⟩ := p
      dsimp only
      rw [if_pos hsync]
      exact ⟨rfl, rfl, by simp [removeSession], .syncFailed, rfl, rfl⟩

/-- Closed instantiation of the C7 theorem: a fully received one-chunk
session whose scratch file is gone makes the merge read fail; the final file
is deleted and the session is not restored. -/
theorem chunked_complete_merge_failure_no_restore_witness :
    (chunked_upload_complete
      { sessions := fun id => if id = "u1" then
          some { uploadId := "u1", filename := "f.bin", totalSize := 5, totalChunks := 1
                 chunkSize := 5, uploadPath := ["sb"], tempDir := ["tmp", "filest_uploads", "u1"]
                 receivedChunks := [true] }
          else none
        scratch := fun _ _ => none } allOkDisk "u1").finalFile = .deleted ∧
    (chunked_upload_complete
      { sessions := fun id => if id = "u1" then
          some { uploadId := "u1", filename := "f.bin", totalSize := 5, totalChunks := 1
                 chunkSize := 5, uploadPath := ["sb"], tempDir := ["tmp", "filest_uploads", "u1"]
                 receivedChunks := [true] }
          else none
        scratch := fun _ _ => none } allOkDisk "u1").sessions "u1" = none := by
  have h := chunked_complete_merge_failure_no_restore
    { sessions := fun id => if id = "u1" then
        some { uploadId := "u1", filename := "f.bin", totalSize := 5, totalChunks := 1
               chunkSize := 5, uploadPath := ["sb"], tempDir := ["tmp", "filest_uploads", "u1"]
               receivedChunks := [true] }
        else none
      scratch := fun _ _ => none } allOkDisk "u1"
    { uploadId := "u1", filename := "f.bin", totalSize := 5, totalChunks := 1
      chunkSize := 5, uploadPath := ["sb"], tempDir := ["tmp", "filest_uploads", "u1"]
      receivedChunks := [true] }
    (by simp) (by decide) rfl rfl
    (Or.inl ⟨.readChunkFailed 0, rfl⟩)
  exact ⟨h.1, h.2.2.1⟩

theorem foldl_set_true_get? (order : List Nat) :
    ∀ (rc : List Bool) (j : Nat),
      (order.foldl (fun rc i => rc.set i true) rc).get? j =
        if j ∈ order ∧ j < rc.length then some true else rc.get? j := by
  induction order with
  | nil => intro rc j; simp
  | cons i rest ih =>
    intro rc j
    rw [List.foldl_cons, ih (rc.set i true) j, List.length_set]
    by_cases hjr : j ∈ rest ∧ j < rc.length
    · rw [if_pos hjr, if_pos ⟨List.mem_cons_of_mem i hjr.1, hjr.2⟩]
    · rw [if_neg hjr, List.get?_set]
      by_cases hij : i = j
      · subst hij
        rw [if_pos rfl]
        by_cases hlen : i < rc.length
        · rw [if_pos ⟨List.mem_cons_self i rest, hlen⟩]
          cases hval : rc.get? i with
          | none =>
            rw [List.get?_eq_none] at hval
            omega
          | some a => rfl
        · rw [if_neg (fun hcon => hlen hcon.2)]
          have hval : rc.get? i = none := List.get?_eq_none.mpr (by omega)
          rw [hval]
          rfl
      · rw [if_neg hij]
        rw [if_neg (by
          rintro ⟨hmem, hlen⟩
          rcases List.mem_cons.mp hmem with h | h
          · exact hij h.symm
          · exact hjr ⟨h, hlen⟩)]

theorem foldl_set_true_replicate (n : Nat) (order : List Nat)
    (hcov : ∀ i, i < n → i ∈ order) :
    order.foldl (fun rc i => rc.set i true) (List.replicate n false) =
      List.replicate n true := by
  apply List.ext_get?_iff.mpr
  intro j
  rw [foldl_set_true_get?, List.length_replicate]
  by_cases hj : j < n
  · rw [if_pos ⟨hcov j hj, hj⟩]
    simp [List.getElem?_replicate, hj]
  · rw [if_neg (by tauto)]
    simp [List.getElem?_replicate, hj]

theorem missingIndices_replicate_true (n : Nat) :
    missingIndices (List.replicate n true) = [] := by
  unfold missingIndices
  suffices h : ∀ i, missingFrom i (List.replicate n true) = [] from h 0
  induction n with
  | zero => intro i; rfl
  | succ m ih =>
    intro i
    rw [List.replicate_succ, missingFrom_cons_true]
    exact ih (i + 1)

theorem deliverChunks_cons (st : ChunkedState) (uploadId : String) (d : Nat → List Nat)
    (i : Nat) (rest : List Nat) :
    deliverChunks st uploadId d (i :: rest) =
      deliverChunks (chunked_upload_chunk st uploadId i (d i)).1 uploadId d rest := rfl

theorem chunked_upload_chunk_state (st : ChunkedState) (uploadId : String) (i : Nat)
    (data : List Nat) (s : UploadSession)
    (hs : st.sessions uploadId = some s) (hi : i < s.totalChunks) :
    (chunked_upload_chunk st uploadId i data).1.sessions uploadId =
      some { s with receivedChunks := s.receivedChunks.set i true } ∧
    ∀ id j, (chunked_upload_chunk st uploadId i data).1.scratch id j =
      if id = uploadId ∧ j = i then some data else st.scratch id j := by
  unfold chunked_upload_chunk
  rw [hs]
  dsimp only
  rw [if_neg (by omega)]
  constructor
  · dsimp only
    rw [if_pos rfl, hs]
    rfl
  · intro id j
    rfl

theorem deliverChunks_spec (uploadId : String) (d : Nat → List Nat) :
    ∀ (order : List Nat) (st : ChunkedState) (s : UploadSession),
      st.sessions uploadId = some s →
      (∀ i ∈ order, i < s.totalChunks) →
      ((deliverChunks st uploadId d order).sessions uploadId =
        some { s with
               receivedChunks := order.foldl (fun rc i => rc.set i true) s.receivedChunks }) ∧
      (∀ j, (deliverChunks st uploadId d order).scratch uploadId j =
        if j ∈ order then some (d j) else st.scratch uploadId j) := by
  intro order
  induction order with
  | nil =>
    intro st s hs _
    refine ⟨?_, ?_⟩
    · simpa [deliverChunks] using hs
    · intro j
      simp [deliverChunks]
  | cons i rest ih =>
    intro st s hs hmem
    have hi : i < s.totalChunks := hmem i (List.mem_cons_self i rest)
    have hstep := chunked_upload_chunk_state st uploadId i (d i) s hs hi
    rw [deliverChunks_cons]
    have hrest : ∀ i2 ∈ rest,
        i2 < ({ s with receivedChunks := s.receivedChunks.set i true } : UploadSession).totalChunks :=
      fun i2 h2 => hmem i2 (List.mem_cons_of_mem i h2)
    have hmain := ih (chunked_upload_chunk st uploadId i (d i)).1 _ hstep.1 hrest
    refine ⟨?_, ?_⟩
    · rw [hmain.1]
      rfl
    · intro j
      rw [hmain.2 j, hstep.2 uploadId j]
      by_cases hj : j ∈ rest
      · rw [if_pos hj, if_pos (List.mem_cons_of_mem i hj)]
      · rw [if_neg hj]
        by_cases hji : j = i
        · subst hji
          rw [if_pos ⟨rfl, rfl⟩, if_pos (List.mem_cons_self j rest)]
        · rw [if_neg (by tauto), if_neg (by simp [hj, hji])]

theorem mergeChunks_ok (d : Nat → List Nat) :
    ∀ (l : List Nat) (chunks : Nat → Option (List Nat)),
      (∀ i ∈ l, chunks i = some (d i)) →
      mergeChunks chunks allOkDisk l =
        .ok ((l.map d).flatten, (l.map (fun i => (d i).length)).sum) := by
  intro l
  induction l with
  | nil => intro chunks _; rfl
  | cons i rest ih =>
    intro chunks h
    have hi : chunks i = some (d i) := h i (List.mem_cons_self i rest)
    conv_lhs => unfold mergeChunks
    rw [if_neg (by simp [allOkDisk]), hi]
    dsimp only
    rw [if_neg (by simp [allOkDisk]),
        ih chunks (fun x hx => h x (List.mem_cons_of_mem i hx))]
    simp

/-- C4: after every index of a fresh `totalChunks`-chunk session has been
delivered in an arbitrary arrival order (re-deliveries overwrite
idempotently), `Complete` writes the destination as the concatenation of the
chunk contents in index order, reports the sum of the chunk lengths as the
size, and the output is byte-identical to the in-order arrival
`0, 1, ..., totalChunks - 1`. -/
theorem chunked_complete_order_independent (st : ChunkedState) (uploadId : String)
    (session : UploadSession) (d : Nat → List Nat) (order : List Nat)
    (hsess : st.sessions uploadId = some session)
    (hfresh : session.receivedChunks = List.replicate session.totalChunks false)
    (hmem : ∀ i ∈ order, i < session.totalChunks)
    (hcov : ∀ i, i < session.totalChunks → i ∈ order) :
    (chunked_upload_complete (deliverChunks st uploadId d order) allOkDisk uploadId).finalFile =
      .written (((List.range session.totalChunks).map d).flatten) ∧
    (chunked_upload_complete (deliverChunks st uploadId d order) allOkDisk uploadId).result =
      .ok { name := session.filename
            size := ((List.range session.totalChunks).map (fun i => (d i).length)).sum
            path := session.uploadPath ++ [session.filename] } ∧
    (chunked_upload_complete (deliverChunks st uploadId d order) allOkDisk uploadId).finalFile =
      (chunked_upload_complete (deliverChunks st uploadId d (List.range session.totalChunks))
        allOkDisk uploadId).finalFile ∧
    (chunked_upload_complete (deliverChunks st uploadId d order) allOkDisk uploadId).result =
      (chunked_upload_complete (deliverChunks st uploadId d (List.range session.totalChunks))
        allOkDisk uploadId).result := by
  have main : ∀ (ord : List Nat), (∀ i ∈ ord, i < session.totalChunks) →
      (∀ i, i < session.totalChunks → i ∈ ord) →
      (chunked_upload_complete (deliverChunks st uploadId d ord) allOkDisk uploadId).finalFile =
        .written (((List.range session.totalChunks).map d).flatten) ∧
      (chunked_upload_complete (deliverChunks st uploadId d ord) allOkDisk uploadId).result =
        .ok { name := session.filename
              size := ((List.range session.totalChunks).map (fun i => (d i).length)).sum
              path := session.uploadPath ++ [session.filename] } := by
    intro ord hm hc
    obtain ⟨hsess1, hscr⟩ := deliverChunks_spec uploadId d ord st session hsess hm
    have hrc : ord.foldl (fun rc i => rc.set i true) session.receivedChunks =
        List.replicate session.totalChunks true := by
      rw [hfresh]
      exact foldl_set_true_replicate session.totalChunks ord hc
    rw [hrc] at hsess1
    have hmerge : mergeChunks ((deliverChunks st uploadId d ord).scratch uploadId) allOkDisk
        (List.range session.totalChunks) =
        .ok (((List.range session.totalChunks).map d).flatten,
             ((List.range session.totalChunks).map (fun i => (d i).length)).sum) := by
      apply mergeChunks_ok
      intro i hi
      rw [hscr i, if_pos (hc i (List.mem_range.mp hi))]
    unfold chunked_upload_complete
    rw [hsess1]
    dsimp only
    rw [if_neg (by simp [missingIndices_replicate_true]), if_neg (by simp [allOkDisk]),
        if_neg (by simp [allOkDisk]), hmerge]
    dsimp only
    rw [if_neg (by simp [allOkDisk])]
    exact ⟨rfl, rfl⟩
  have h1 := main order hmem hcov
  have h2 := main (List.range session.totalChunks)
    (fun i hi => List.mem_range.mp hi) (fun i hi => List.mem_range.mpr hi)
  exact ⟨h1.1, h1.2, by rw [h1.1, h2.1], by rw [h1.2, h2.2]⟩

/-- Fresh two-chunk session for concrete instantiations (spec scenario A). -/
def sessionA : UploadSession :=
  { uploadId := "u1", filename := "f.bin", totalSize := 10, totalChunks := 2
    chunkSize := 5, uploadPath := ["sb"], tempDir := ["tmp", "filest_uploads", "u1"]
    receivedChunks := List.replicate 2 false }

/-- Store holding only the fresh session `sessionA`, with no scratch files. -/
def stateA : ChunkedState :=
  { sessions := fun id => if id = "u1" then some sessionA else none
    scratch := fun _ _ => none }

/-- Chunk contents of spec scenario A: chunk 0 is `hello`, chunk 1 is
`world`, as byte lists. -/
def bytesA : Nat → List Nat :=
  fun i => if i = 0 then [104, 101, 108, 108, 111] else [119, 111, 114, 108, 100]

/-- Closed instantiation of the C4 theorem: delivering chunk 1 then chunk 0
and completing yields the bytes of `helloworld` and size 10. -/
theorem chunked_complete_order_independent_witness :
    (chunked_upload_complete (deliverChunks stateA "u1" bytesA [1, 0]) allOkDisk "u1").finalFile =
      .written [104, 101, 108, 108, 111, 119, 111, 114, 108, 100] ∧
    (chunked_upload_complete (deliverChunks stateA "u1" bytesA [1, 0]) allOkDisk "u1").result =
      .ok { name := "f.bin", size := 10, path := ["sb", "f.bin"] } := by
  have h := chunked_complete_order_independent stateA "u1" sessionA bytesA [1, 0]
    rfl rfl (by decide) (by decide)
  refine ⟨?_, ?_⟩
  · rw [h.1]
    rfl
  · rw [h.2.1]
    rfl

/-- C10: a session initialized with `totalChunks = 0` completes immediately
with no chunk delivered: the missing-chunk check passes vacuously over the
empty bitset, an empty destination file is written at
`uploadPath/filename`, the scratch directory is removed, and the response
reports size 0. -/
theorem chunked_complete_zero_chunks (fs : Fs) (root tempRoot : FsPath)
    (uploadId path filename : String) (totalSize chunkSize : Nat)
    (st : ChunkedState) (session : UploadSession)
    (hinit : chunked_upload_init fs root tempRoot uploadId path filename totalSize chunkSize 0 =
      some session)
    (hsess : st.sessions uploadId = some session) :
    (chunked_upload_complete st allOkDisk uploadId).result =
      .ok { name := filename, size := 0, path := session.uploadPath ++ [filename] } ∧
    (chunked_upload_complete st allOkDisk uploadId).finalFile = .written [] ∧
    (chunked_upload_complete st allOkDisk uploadId).scratchRemoved = true ∧
    (chunked_upload_complete st allOkDisk uploadId).sessions uploadId = none := by
  unfold chunked_upload_init at hinit
  rw [Option.map_eq_some'] at hinit
  obtain ⟨p, hp, hs⟩ := hinit
  subst hs
  have hmerge : mergeChunks (st.scratch uploadId) allOkDisk (List.range 0) = .ok ([], 0) := rfl
  unfold chunked_upload_complete
  rw [hsess]
  dsimp only
  rw [if_neg (by decide), if_neg (by decide), if_neg (by decide), hmerge]
  dsimp only
  rw [if_neg (by decide)]
  exact ⟨rfl, rfl, rfl, by simp [removeSession]⟩

/-- The session that `chunked_upload_init` builds for a zero-chunk upload
into `docs`. -/
def sessionZ : UploadSession :=
  { uploadId := "u1", filename := "f.bin", totalSize := 0, totalChunks := 0
    chunkSize := 5, uploadPath := ["sb", "docs"], tempDir := ["tmp", "filest_uploads", "u1"]
    receivedChunks := List.replicate 0 false }

/-- Closed instantiation of the C10 theorem at a concrete zero-chunk
session. -/
theorem chunked_complete_zero_chunks_witness :
    (chunked_upload_complete
      { sessions := fun id => if id = "u1" then some sessionZ else none
        scratch := fun _ _ => none } allOkDisk "u1").result =
      .ok { name := "f.bin", size := 0, path := ["sb", "docs", "f.bin"] } ∧
    (chunked_upload_complete
      { sessions := fun id => if id = "u1" then some sessionZ else none
        scratch := fun _ _ => none } allOkDisk "u1").finalFile = .written [] := by
  have h := chunked_complete_zero_chunks noFs ["sb"] ["tmp"] "u1" "docs" "f.bin" 0 5
    { sessions := fun id => if id = "u1" then some sessionZ else none
      scratch := fun _ _ => none }
    sessionZ (by decide) rfl
  refine ⟨?_, h.2.1⟩
  rw [h.1]
  rfl

/-- Components of a relative path string as `PathBuf::push`/`components`
parse it for component-wise comparison: empty and `.` segments are dropped,
while `..` is kept as a literal component — `Path::starts_with` compares
components lexically and never resolves `..`. -/
def joinComponents (s : String) : List String :=
  (splitSlash s.data []).filter (fun c => !(c == "" || c == "."))

/-- Where the operating system actually ends up when asked to create the
literal component list of an absolute path: each `..` component pops one
level.  Used to state where `create_dir_all` creates directories when handed
an unresolved path. -/
def resolveDots (p : FsPath) : FsPath :=
  p.foldl (fun acc c => if c = ".." then acc.dropLast else acc ++ [c]) []

/-- The three paths computed by a successful WebSocket `Init`. -/
structure StreamSessionPaths where
  targetDir : FsPath
  tempPath : FsPath
  targetPath : FsPath
deriving Repr, DecidableEq

/-- Embedding of the path validation and layout in `create_upload_session`
(src/ws_upload.rs lines 337-391): strip leading slashes; join the remaining
components onto root without resolving `..`; canonicalize, falling back to
the unresolved path when canonicalization fails (e.g. the directory does not
yet exist); accept when root is a lexical component prefix of the result.  On
success the source runs `create_dir_all` on `targetDir` and creates the temp
file `.upload_<id>.tmp` and the target `<filename>` inside it.  The declared
size is only logged and is omitted here. -/
def create_upload_session (fs : Fs) (root : FsPath) (filename uploadId : String)
    (path : String) : Option StreamSessionPaths :=
  let normalized := trimLeadingSlashes path
  let targetDir0 := if normalized = "" then root else root ++ joinComponents normalized
  let targetDir := (fs.canonicalize targetDir0).getD targetDir0
  if root <+: targetDir then
    some { targetDir := targetDir
           tempPath := targetDir ++ [".upload_" ++ uploadId ++ ".tmp"]
           targetPath := targetDir ++ [filename] }
  else none

/-- C3: evaluation of the WebSocket `Init` path check on the
not-yet-existing path `../outside`: canonicalization fails, the fallback
keeps the literal `..` component, the lexical prefix check passes anyway,
and the directory that `create_dir_all` then creates — the dot-resolved
target, which also holds the temp file and target path — lies outside the
sandbox root instead of `Init` failing. -/
theorem ws_create_session_escapes_root :
    create_upload_session noFs ["sandbox"] "f.bin" "u1" "../outside" =
      some { targetDir := ["sandbox", "..", "outside"]
             tempPath := ["sandbox", "..", "outside", ".upload_u1.tmp"]
             targetPath := ["sandbox", "..", "outside", "f.bin"] } ∧
    resolveDots ["sandbox", "..", "outside"] = ["outside"] ∧
    ¬ (["sandbox"] : FsPath) <+: resolveDots ["sandbox", "..", "outside"] := by
  decide

/-- Client messages of the WebSocket protocol (`ClientMessage` in
src/ws_upload.rs); `text` payloads that parse carry one of these. -/
inductive ClientMessage
  | auth (username password : String)
  | init (filename : String) (size : Nat) (path : String)
  | complete
  | cancel
deriving Repr, DecidableEq

/-- Server messages (`ServerMessage` in src/ws_upload.rs).  The floating
point `percent` field of `Progress` is omitted; no claim concerns it. -/
inductive ServerMessage
  | authRequired
  | authOk
  | authFailed (message : String)
  | initOk (uploadId : String)
  | progress (received total : Nat)
  | completeOk (path : String) (size : Nat)
  | errorMsg (code : String) (message : String)
deriving Repr, DecidableEq

/-- WebSocket upload session (`UploadSession` in src/ws_upload.rs);
`fileOpen` models whether the `Option<fs::File>` handle is still present. -/
structure StreamSession where
  uploadId : String
  filename : String
  targetPath : FsPath
  tempPath : FsPath
  totalSize : Nat
  receivedSize : Nat
  fileOpen : Bool
deriving Repr, DecidableEq

/-- Environment of one WebSocket connection: the configured credentials and
oracles for the disk operations the handler performs — session creation
(path check, directory creation, temp-file creation), per-frame writes,
the final flush, and the rename. -/
structure WsEnv where
  username : String
  password : String
  initSession : String → Nat → String → Option StreamSession
  writeOk : Bool
  flushOk : Bool
  renameOk : Bool

/-- Mutable state of the `handle_upload` loop plus the on-disk status of the
current session artifacts: whether its temp file exists and whether the
destination file has been created. -/
structure WsState where
  authenticated : Bool
  session : Option StreamSession
  tempOnDisk : Bool
  destOnDisk : Bool
deriving Repr, DecidableEq

/-- One item yielded by `socket.recv()`: a parsed text message, an
unparseable text payload, a binary frame, a Close frame, or a receive
error.  The end of the list models the stream ending (`recv` returning
`None`). -/
inductive WsIncoming
  | text (msg : ClientMessage)
  | invalidText
  | binary (data : List Nat)
  | closeFrame
  | recvError
deriving Repr, DecidableEq

/-- The progress reporting interval of 2 MiB (src/ws_upload.rs line 264). -/
def progressInterval : Nat := 2 * 1024 * 1024

/-- One iteration of the `handle_upload` message loop (src/ws_upload.rs
lines 127-325), as a function from the incoming item to the new state, the
messages sent during the iteration, and whether the loop continues.
Mirrors the source case by case: receive errors break with no cleanup;
Close frames delete the temp file of an open session and break; invalid
JSON reports `INVALID_MESSAGE` and continues; `Auth` compares credentials;
`Init` requires authentication and opens a session (creating its temp
file); `Complete` takes the session, flushes and renames (failure keeps the
temp file), and breaks; `Cancel` deletes the temp file and breaks; binary
frames require authentication and a session, append to the temp file and
report progress only on a 2 MiB milestone or on reaching the declared
total, and on a write failure report `WRITE_FAILED`, delete the temp file
and break. -/
def wsStep (env : WsEnv) (st : WsState) (ev : WsIncoming) :
    WsState × List ServerMessage × Bool :=
  match ev with
  | .recvError => (st, [], false)
  | .closeFrame =>
    match st.session with
    | some _ => ({ st with session := none, tempOnDisk := false }, [], false)
    | none => (st, [], false)
  | .invalidText => (st, [.errorMsg "INVALID_MESSAGE" "Invalid JSON"], true)
  | .text m =>
    match m with
    | .auth u p =>
      if u = env.username ∧ p = env.password then
        ({ st with authenticated := true }, [.authOk], true)
      else (st, [.authFailed "Invalid credentials"], true)
    | .init filename size path =>
      if st.authenticated = false then (st, [.authRequired], true)
      else
        match env.initSession filename size path with
        | some s =>
          ({ st with session := some s, tempOnDisk := true }, [.initOk s.uploadId], true)
        | none => (st, [.errorMsg "INIT_FAILED" "Failed to create upload session"], true)
    | .complete =>
      match st.session with
      | none => (st, [], false)
      | some s =>
        if (s.fileOpen && !env.flushOk) || !env.renameOk then
          ({ st with session := none },
           [.errorMsg "COMPLETE_FAILED" "Failed to move file"], false)
        else
          ({ st with session := none, tempOnDisk := false, destOnDisk := true },
           [.completeOk ("/" ++ s.filename) s.receivedSize], false)
    | .cancel =>
      match st.session with
      | some _ => ({ st with session := none, tempOnDisk := false }, [], false)
      | none => (st, [], false)
  | .binary data =>
    if st.authenticated = false then (st, [.authRequired], true)
    else
      match st.session with
      | none => (st, [.errorMsg "NO_SESSION" "Upload not initialized"], true)
      | some s =>
        if env.writeOk && s.fileOpen then
          let received := s.receivedSize + data.length
          let prevMilestone := (received - data.length) / progressInterval
          let currMilestone := received / progressInterval
          let msgs :=
            if prevMilestone < currMilestone ∨ received = s.totalSize then
              [.progress received s.totalSize]
            else []
          ({ st with session := some { s with receivedSize := received } }, msgs, true)
        else
          ({ st with tempOnDisk := false },
           [.errorMsg "WRITE_FAILED" "Write failed"], false)

/-- The `while let Some(msg) = socket.recv().await` loop of `handle_upload`:
run steps until one breaks or the stream ends, collecting sent messages. -/
def runWsLoop (env : WsEnv) : WsState → List WsIncoming → WsState × List ServerMessage
  | st, [] => (st, [])
  | st, ev :: rest =>
    match wsStep env st ev with
    | (st1, msgs, cont) =>
      if cont then
        match runWsLoop env st1 rest with
        | (st2, msgs2) => (st2, msgs ++ msgs2)
      else (st1, msgs)

/-- Embedding of `handle_upload` (src/ws_upload.rs lines 112-325): start
unauthenticated unless pre-authenticated by upgrade-time credentials (in
which case no `AuthRequired` prompt is sent), then run the message loop.
Nothing runs after the loop: no cleanup happens when it exits. -/
def handle_upload (env : WsEnv) (preAuth : Bool) (events : List WsIncoming) :
    WsState × List ServerMessage :=
  let st0 : WsState :=
    { authenticated := preAuth, session := none, tempOnDisk := false, destOnDisk := false }
  match runWsLoop env st0 events with
  | (st, msgs) => (st, (if preAuth then [] else [.authRequired]) ++ msgs)

/-- Environment for concrete WebSocket runs: fixed credentials, session
creation succeeding with a fresh session, every disk operation
succeeding. -/
def testWsEnv : WsEnv :=
  { username := "admin"
    password := "pw"
    initSession := fun filename size _ =>
      some { uploadId := "u1", filename := filename
             targetPath := ["sb", filename], tempPath := ["sb", ".upload_u1.tmp"]
             totalSize := size, receivedSize := 0, fileOpen := true }
    writeOk := true
    flushOk := true
    renameOk := true }

/-- C8: evaluation of the WebSocket loop on an open session ending without
`Complete`.  An explicit Close frame does delete the temp file, but when
the connection dies with a receive error, or the message stream simply
ends, the loop exits leaving the temp file on disk; the destination file is
never created in any of the three cases. -/
theorem ws_close_without_complete_leaves_temp :
    ((handle_upload testWsEnv true
        [.text (.init "a.bin" 4 "/"), .binary [1, 2], .recvError]).1.tempOnDisk = true ∧
      (handle_upload testWsEnv true
        [.text (.init "a.bin" 4 "/"), .binary [1, 2], .recvError]).1.destOnDisk = false) ∧
    ((handle_upload testWsEnv true
        [.text (.init "a.bin" 4 "/"), .binary [1, 2]]).1.tempOnDisk = true ∧
      (handle_upload testWsEnv true
        [.text (.init "a.bin" 4 "/"), .binary [1, 2]]).1.destOnDisk = false) ∧
    ((handle_upload testWsEnv true
        [.text (.init "a.bin" 4 "/"), .binary [1, 2], .closeFrame]).1.tempOnDisk = false ∧
      (handle_upload testWsEnv true
        [.text (.init "a.bin" 4 "/"), .binary [1, 2], .closeFrame]).1.destOnDisk = false) := by
  decide

/-- C9: on an authenticated connection with an open session and a
successful write, a binary frame sends exactly one `Progress` message —
with the new cumulative count and the declared total — precisely when the
cumulative count crosses a 2 MiB milestone (its quotient by 2 MiB strictly
increases over its value before the frame) or equals the declared total;
otherwise no message is sent.  The loop continues with only the received
count updated. -/
theorem ws_progress_iff_milestone (env : WsEnv) (st : WsState) (s : StreamSession)
    (data : List Nat) (hauth : st.authenticated = true) (hsess : st.session = some s)
    (hw : env.writeOk = true) (hopen : s.fileOpen = true) :
    wsStep env st (.binary data) =
      ({ st with session := some { s with receivedSize := s.receivedSize + data.length } },
       (if s.receivedSize / progressInterval <
            (s.receivedSize + data.length) / progressInterval
          ∨ s.receivedSize + data.length = s.totalSize then
          [.progress (s.receivedSize + data.length) s.totalSize]
        else []),
       true) := by
  simp [wsStep, hauth, hsess, hw, hopen, Nat.add_sub_cancel]

/-- A session with 0 of 4 declared bytes received. -/
def streamSessionW : StreamSession :=
  { uploadId := "u1", filename := "a.bin", targetPath := ["sb", "a.bin"]
    tempPath := ["sb", ".upload_u1.tmp"], totalSize := 4, receivedSize := 0
    fileOpen := true }

/-- An authenticated state holding `streamSessionW` with its temp file on
disk. -/
def wsStateW : WsState :=
  { authenticated := true, session := some streamSessionW, tempOnDisk := true
    destOnDisk := false }

/-- Closed instantiation of the C9 theorem: a 4-byte frame reaches the
declared total of 4 bytes, so exactly one Progress message is sent. -/
theorem ws_progress_iff_milestone_witness :
    wsStep testWsEnv wsStateW (.binary [1, 2, 3, 4]) =
      ({ wsStateW with session := some { streamSessionW with receivedSize := 4 } },
       [.progress 4 4], true) := by
  have h := ws_progress_iff_milestone testWsEnv wsStateW streamSessionW [1, 2, 3, 4]
    rfl rfl rfl rfl
  rw [h]
  decide

end Filest
